import Mathlib

/-!
Shallow embedding of the core logic of the `ai-chatbot` repository
(session/message data model, streaming ingestion, derived views,
file validation), together with theorems settling the specification
claims.  Each definition mirrors one TypeScript function of the source;
JavaScript numbers are modelled as exact rationals, JS `Date` values as
integer timestamps, optional fields as `Option`, and JS truthiness is
made explicit where the source relies on it.
-/

namespace AIChatbot

/-! ## Data model (`src/types/chat.ts`) -/

inductive Role where
  | user
  | assistant
  | system
deriving DecidableEq, Repr

inductive Sentiment where
  | positive
  | negative
  | neutral
deriving DecidableEq, Repr

structure MessageMetadata where
  model : Option String := none
  temperature : Option ℚ := none
  maxTokens : Option ℕ := none
  topP : Option ℚ := none
  cost : Option ℚ := none
  language : Option String := none
  sentiment : Option Sentiment := none
  topics : Option (List String) := none
deriving DecidableEq, Repr

structure MessageReaction where
  emoji : String
  count : ℕ
  users : List String
deriving DecidableEq, Repr

structure AttachedFile where
  id : String
  name : String
  type : String
  size : ℕ
  content : String
  url : Option String := none
  thumbnail : Option String := none
  extractedText : Option String := none
deriving DecidableEq, Repr

structure Message where
  id : String
  role : Role
  content : String
  timestamp : ℤ := 0
  files : Option (List AttachedFile) := none
  metadata : Option MessageMetadata := none
  reactions : Option (List MessageReaction) := none
  isEdited : Option Bool := none
  originalContent : Option String := none
  tokens : Option ℕ := none
  processingTime : Option ℚ := none
deriving DecidableEq, Repr

structure SentimentDistribution where
  positive : ℕ
  negative : ℕ
  neutral : ℕ
deriving DecidableEq, Repr

structure SessionStatistics where
  totalMessages : ℕ
  totalTokens : ℕ
  totalCost : ℚ
  averageResponseTime : ℚ
  topTopics : List String
  sentimentDistribution : SentimentDistribution
deriving DecidableEq, Repr

structure ChatSession where
  id : String
  title : String
  messages : List Message
  createdAt : ℤ := 0
  updatedAt : ℤ := 0
  tags : Option (List String) := none
  category : Option String := none
  isArchived : Option Bool := none
  isFavorite : Option Bool := none
  statistics : Option SessionStatistics := none
deriving DecidableEq, Repr

structure SearchFilters where
  query : Option String := none
  dateFrom : Option ℤ := none
  dateTo : Option ℤ := none
  tags : Option (List String) := none
  category : Option String := none
  messageType : Option Role := none
  hasFiles : Option Bool := none
  sentiment : Option Sentiment := none
deriving DecidableEq, Repr

/-! ## JavaScript string helpers

`jsToLower` models `String.prototype.toLowerCase` on the alphabets the
source's heuristics use (ASCII Latin and Cyrillic А-Я / Ё); other code
points are left unchanged.  `jsIncludes` models
`String.prototype.includes` via list infix containment. -/

def jsToLower (c : Char) : Char :=
  if 'A' ≤ c ∧ c ≤ 'Z' then Char.ofNat (c.toNat + 32)
  else if 'А' ≤ c ∧ c ≤ 'Я' then Char.ofNat (c.toNat + 32)
  else if c = 'Ё' then 'ё'
  else c

def jsLower (s : String) : String :=
  String.mk (s.toList.map jsToLower)

/-- Contiguous-subsequence test on character lists (the semantics of
`String.prototype.includes`; the empty needle is always found). -/
def hasSeq (sub : List Char) : List Char → Bool
  | [] => sub.isEmpty
  | c :: t => sub.isPrefixOf (c :: t) || hasSeq sub t

def jsIncludes (s sub : String) : Bool :=
  hasSeq sub.toList s.toList

/-- `String.prototype.split` with a separator predicate (used with a
single-character separator, where it matches JS `split(sep)` exactly:
fragments between separator occurrences, empty fragments preserved,
always at least one fragment). -/
def splitOnPred (p : Char → Bool) : List Char → List (List Char)
  | [] => [[]]
  | c :: rest =>
    if p c then [] :: splitOnPred p rest
    else
      match splitOnPred p rest with
      | [] => [[c]]
      | h :: t => (c :: h) :: t

/-- `String.prototype.trim`: drop whitespace from both ends. -/
def trimChars (l : List Char) : List Char :=
  ((l.dropWhile Char.isWhitespace).reverse.dropWhile Char.isWhitespace).reverse

def digitChar (n : ℕ) : Char := Char.ofNat (48 + n)

def natToCharsAux : ℕ → ℕ → List Char
  | 0, _ => []
  | fuel + 1, n =>
    if n < 10 then [digitChar n]
    else natToCharsAux fuel (n / 10) ++ [digitChar (n % 10)]

/-- Decimal digits of a natural number (JS number-to-string for
nonnegative integers). -/
def natToChars (n : ℕ) : List Char := natToCharsAux (n + 1) n

/-- JS truthiness of an optional string: `undefined` and `""` are falsy. -/
def jsTruthyStr : Option String → Bool
  | none => false
  | some s => s ≠ ""

/-- JS truthiness of an optional number: `undefined` and `0` are falsy. -/
def jsTruthyNum : Option ℚ → Bool
  | none => false
  | some q => q ≠ 0

/-! ## CerebrasClient heuristic passes (`src/lib/cerebras.ts`) -/

/-- `detectLanguage`: the source counts matches of the non-global regexes
`/[а-яё]/i` and `/[a-z]/i`; `String.prototype.match` with a non-global
regex returns at most one match, so each count is 0 or 1. -/
def isRussianChar (c : Char) : Bool :=
  ('а' ≤ c ∧ c ≤ 'я') ∨ c = 'ё' ∨ ('А' ≤ c ∧ c ≤ 'Я') ∨ c = 'Ё'

def isEnglishChar (c : Char) : Bool :=
  ('a' ≤ c ∧ c ≤ 'z') ∨ ('A' ≤ c ∧ c ≤ 'Z')

def detectLanguage (text : String) : String :=
  let russianCount : ℕ := if text.toList.any isRussianChar then 1 else 0
  let englishCount : ℕ := if text.toList.any isEnglishChar then 1 else 0
  if englishCount < russianCount then "ru"
  else if russianCount < englishCount then "en"
  else "mixed"

def positiveWords : List String :=
  ["хорошо", "отлично", "замечательно", "прекрасно", "великолепно",
   "good", "great", "excellent", "wonderful"]

def negativeWords : List String :=
  ["плохо", "ужасно", "отвратительно", "проблема", "ошибка",
   "bad", "terrible", "awful", "problem", "error"]

def analyzeSentiment (text : String) : Sentiment :=
  let lowerText := jsLower text
  let positiveCount := (positiveWords.filter (fun w => jsIncludes lowerText w)).length
  let negativeCount := (negativeWords.filter (fun w => jsIncludes lowerText w)).length
  if negativeCount < positiveCount then .positive
  else if positiveCount < negativeCount then .negative
  else .neutral

/-- Topic dictionary in `Object.entries` iteration order (declaration order). -/
def topicKeywords : List (String × List String) :=
  [("программирование", ["код", "программа", "разработка", "алгоритм", "функция"]),
   ("наука", ["исследование", "эксперимент", "теория", "гипотеза"]),
   ("технологии", ["компьютер", "интернет", "сеть", "данные", "система"]),
   ("образование", ["учеба", "знания", "обучение", "курс", "урок"]),
   ("бизнес", ["компания", "продажи", "маркетинг", "прибыль", "клиент"])]

def extractTopics (text : String) : List String :=
  let lowerText := jsLower text
  (topicKeywords.filter (fun p => p.2.any (fun k => jsIncludes lowerText k))).map (·.1)

/-- `calculateCost`: per-1000-token price table with a default fallback. -/
def calculateCost (tokens : ℕ) (model : String) : ℚ :=
  let pricePerThousand : ℚ :=
    if model = "llama3.1-8b" then 1/10
    else if model = "llama3.1-70b" then 6/10
    else 1/10
  ((tokens : ℚ) / 1000) * pricePerThousand

/-! ## Streaming ingestion (`CerebrasClient.sendMessageStream`)

The read loop of `sendMessageStream` is embedded as a pure fold over the
list of network reads (each read already text-decoded to characters;
`TextDecoder` with `stream: true` handles UTF-8 sequences split across
reads, so reads are character sequences here).  The observable behaviour
is the ordered list of callback invocations (`onChunk` / `onComplete`),
recorded as events. -/

/-- Resolved streaming configuration after the destructuring defaults
`model = 'llama3.1-8b'`, `temperature = 0.7`, `maxTokens = 4096`,
`topP = 0.9` applied to the caller's partial config. -/
structure StreamCfg where
  model : String := "llama3.1-8b"
  temperature : ℚ := 7/10
  maxTokens : ℕ := 4096
  topP : ℚ := 9/10
deriving DecidableEq, Repr

def defaultStreamCfg : StreamCfg := {}

/-- The final metadata assembled in the `[DONE]` branch of the stream loop. -/
def streamMetadata (cfg : StreamCfg) (tokenCount : ℕ) (totalContent : String) : MessageMetadata :=
  { model := some cfg.model
    temperature := some cfg.temperature
    maxTokens := some cfg.maxTokens
    topP := some cfg.topP
    cost := some (calculateCost tokenCount cfg.model)
    language := some (detectLanguage totalContent)
    sentiment := some (analyzeSentiment totalContent)
    topics := some (extractTopics totalContent) }

/-- A callback invocation observed by the caller of `sendMessageStream`. -/
inductive SEvent where
  | chunk (content : List Char)
  | complete (metadata : MessageMetadata)
deriving DecidableEq, Repr

/-- The loop state apart from the line buffer: accumulated content,
`tokenCount`, the callbacks fired so far (in order), and whether the
early `return` of the `[DONE]` branch has happened. -/
structure StreamCore where
  totalContent : List Char
  tokenCount : ℕ
  events : List SEvent
  finished : Bool
deriving DecidableEq, Repr

structure StreamState where
  buffer : List Char
  core : StreamCore
deriving DecidableEq, Repr

def dataMarker : List Char := "data: ".toList

def doneMarker : List Char := "[DONE]".toList

/-- The complete sentinel line `data: [DONE]`. -/
def sentinelLine : List Char := dataMarker ++ doneMarker

/-- `buffer.split('\n')` followed by `buffer = lines.pop() || ''`:
returns the complete (newline-terminated) lines and the trailing
partial line. -/
def splitF : List Char → List (List Char) × List Char
  | [] => ([], [])
  | c :: rest =>
    if c = '\n' then
      let p := splitF rest
      ([] :: p.1, p.2)
    else
      match splitF rest with
      | ([], r) => ([], c :: r)
      | (h :: t, r) => ((c :: h) :: t, r)

/-- One iteration of `for (const line of lines)`.  `parse` models the
external `JSON.parse` builtin composed with the extraction
`parsed.choices[0]?.delta?.content`: `none` is a parse throw (silently
swallowed by the source's `try`/`catch`), `some none` a parse success
with no string content, `some (some c)` a parse success with content
`c`.  The `if (content)` truthiness guard skips empty deltas. -/
def stepLine (parse : List Char → Option (Option (List Char))) (cfg : StreamCfg)
    (core : StreamCore) (line : List Char) : StreamCore :=
  if core.finished then core
  else if dataMarker.isPrefixOf line then
    let dataPayload := line.drop 6
    if dataPayload = doneMarker then
      { core with
          events := core.events ++
            [.complete (streamMetadata cfg core.tokenCount (String.mk core.totalContent))]
          finished := true }
    else
      match parse dataPayload with
      | none => core
      | some none => core
      | some (some content) =>
        if content = [] then core
        else
          { core with
              totalContent := core.totalContent ++ content
              tokenCount := core.tokenCount + 1
              events := core.events ++ [.chunk content] }
  else core

/-- One iteration of the `while (true)` read loop: decode the read,
split off complete lines, keep the trailing partial line in the buffer,
and run the per-line processing.  When the `[DONE]` early return has
already happened no further read occurs. -/
def processChunk (parse : List Char → Option (Option (List Char))) (cfg : StreamCfg)
    (st : StreamState) (chunk : List Char) : StreamState :=
  if st.core.finished then st
  else
    let p := splitF (st.buffer ++ chunk)
    { buffer := p.2, core := p.1.foldl (stepLine parse cfg) st.core }

def initStreamState : StreamState :=
  ⟨[], ⟨[], 0, [], false⟩⟩

/-- The whole read loop over a list of network reads.  At end-of-stream
(`done`) the loop breaks: the partial buffer is discarded and no further
callback fires. -/
def runStream (parse : List Char → Option (Option (List Char))) (cfg : StreamCfg)
    (chunks : List (List Char)) : StreamCore :=
  (chunks.foldl (processChunk parse cfg) initStreamState).core

/-- Number of `onComplete` invocations in an event list. -/
def countComplete (events : List SEvent) : ℕ :=
  events.countP (fun e => match e with | .complete _ => true | .chunk _ => false)

/-- Model of the external `JSON.parse` builtin composed with
`parsed.choices[0]?.delta?.content`, restricted to the §6 wire shape:
payloads of the exact form
`\x7b"choices":[\x7b"delta":\x7b"content":"<text>"\x7d\x7d]\x7d`
with an escape-free text succeed with that text; every other payload is
reported as a parse failure.  This stands in for the browser builtin,
which is not code of this repository. -/
def deltaOpenChars : List Char := "\x7b\"choices\":[\x7b\"delta\":\x7b\"content\":\"".toList

def deltaCloseChars : List Char := "\"\x7d\x7d]\x7d".toList

def simpleDeltaParse (payload : List Char) : Option (Option (List Char)) :=
  let mid := (payload.drop deltaOpenChars.length).take
      (payload.length - deltaOpenChars.length - deltaCloseChars.length)
  if deltaOpenChars.isPrefixOf payload && deltaCloseChars.isSuffixOf payload &&
      decide (deltaOpenChars.length + deltaCloseChars.length ≤ payload.length) &&
      !(mid.any (fun c => c = '"' || c = '\\'))
  then some (some mid)
  else none

/-! Concrete wire inputs for the streaming scenarios. -/

def helloFrame1 : List Char :=
  "data: \x7b\"choices\":[\x7b\"delta\":\x7b\"content\":\"Hel\"\x7d\x7d]\x7d".toList

def helloFrame2 : List Char :=
  "data: \x7b\"choices\":[\x7b\"delta\":\x7b\"content\":\"lo\"\x7d\x7d]\x7d".toList

/-- The three-line wire input of the streaming scenario (each line
newline-terminated, as SSE frames are). -/
def helloInput : List Char :=
  helloFrame1 ++ '\n' :: helloFrame2 ++ '\n' :: sentinelLine ++ ['\n']

/-- Wire input with only the `[DONE]` sentinel and zero content deltas. -/
def doneOnlyInput : List Char := sentinelLine ++ ['\n']

/-- The malformed-frame wire input of C3: a `data: <payload>` line whose
payload does not parse, interleaved between the two valid frames. -/
def malformedInput (badPayload : List Char) : List Char :=
  helloFrame1 ++ '\n' :: ((dataMarker ++ badPayload) ++ '\n' ::
    (helloFrame2 ++ '\n' :: (sentinelLine ++ ['\n'])))

/-! ## ChatInterface session mutations (`src/components/chat/ChatInterface.tsx`) -/

/-- `generateTitle`: first six fragments of the trimmed content split on
the space character, joined by single spaces, with `'...'` appended when
the *untrimmed* content split on the space character has more than six
fragments. -/
def generateTitle (content : String) : String :=
  let words := (splitOnPred (fun c => c = ' ') (trimChars content.data)).take 6
  String.mk (List.intercalate [' '] words ++
    (if 6 < (splitOnPred (fun c => c = ' ') content.data).length then "...".data else []))

/-- The title installed by `sendMessage` when appending the user message:
overwritten from the content on the session's first message, otherwise
left unchanged. -/
def sendMessageTitle (session : ChatSession) (content : String) : String :=
  if session.messages.length = 0 then generateTitle content else session.title

/-- `handleMessageEdit`: replaces the content of the message with the
given id, sets the edited flag, and stores the previous content in
`originalContent` (unconditionally, on every edit). -/
def handleMessageEdit (messages : List Message) (messageId : String)
    (newContent : String) : List Message :=
  messages.map fun msg =>
    if msg.id = messageId then
      { msg with content := newContent, isEdited := some true,
                 originalContent := some msg.content }
    else msg

/-- The inline `newStats` computation of `sendMessage`, evaluated on the
final message list and the just-appended assistant message. -/
def sendMessageNewStats (finalMessages : List Message) (assistantMessage : Message) :
    SessionStatistics :=
  { totalMessages := finalMessages.length
    totalTokens := finalMessages.foldl (fun sum msg => sum + msg.tokens.getD 0) 0
    totalCost := finalMessages.foldl
      (fun sum msg => sum + ((msg.metadata.bind (·.cost)).getD 0)) 0
    averageResponseTime :=
      let arr := finalMessages.filter (fun msg => jsTruthyNum msg.processingTime)
      arr.foldl (fun sum msg => sum + msg.processingTime.getD 0 / (arr.length : ℚ)) 0
    topTopics := ((assistantMessage.metadata.bind (·.topics)).getD [])
    sentimentDistribution :=
      { positive := (finalMessages.filter
          (fun msg => msg.metadata.bind (·.sentiment) = some .positive)).length
        negative := (finalMessages.filter
          (fun msg => msg.metadata.bind (·.sentiment) = some .negative)).length
        neutral := (finalMessages.filter
          (fun msg => msg.metadata.bind (·.sentiment) = some .neutral)).length } }

/-- `importSessions`: the external `JSON.parse` is modelled by the
`parse` argument (`none` = throw).  On success the parsed sessions are
prepended to the existing collection; on failure an import error is
signalled (the returned flag) and the collection is untouched. -/
def importSessions (parse : String → Option (List ChatSession)) (payload : String)
    (prev : List ChatSession) : List ChatSession × Bool :=
  match parse payload with
  | some importedSessions => (importedSessions ++ prev, false)
  | none => (prev, true)

/-! ## Analytics (`src/hooks/useAnalytics.ts`) -/

/-- The cross-session totals of `useAnalytics` (the claim under test
covers `totalMessages` and `totalCost`; the per-day/model/topic
histograms of the remainder of the hook are outside every claim). -/
structure AnalyticsTotals where
  totalSessions : ℕ
  totalMessages : ℕ
  totalTokens : ℕ
  totalCost : ℚ
deriving DecidableEq, Repr

def useAnalyticsTotals (sessions : List ChatSession) : AnalyticsTotals :=
  { totalSessions := sessions.length
    totalMessages := sessions.foldl (fun sum session => sum + session.messages.length) 0
    totalTokens := sessions.foldl
      (fun sum session =>
        sum + session.messages.foldl (fun msgSum msg => msgSum + msg.tokens.getD 0) 0) 0
    totalCost := sessions.foldl
      (fun sum session =>
        sum + session.messages.foldl
          (fun msgSum msg => msgSum + ((msg.metadata.bind (·.cost)).getD 0)) 0) 0 }

/-- Insertion-ordered upsert into a `topic → count` association list:
models a JS object literal used as a counter (`Object.entries` later
iterates keys in insertion order). -/
def bumpTopic (acc : List (String × ℕ)) (topic : String) : List (String × ℕ) :=
  if acc.any (fun p => p.1 = topic) then
    acc.map (fun p => if p.1 = topic then (p.1, p.2 + 1) else p)
  else acc ++ [(topic, 1)]

/-- Stable insertion into a count-descending list: an element is placed
after every element with a count that is not smaller, which is exactly
the order produced by the (spec-mandated stable) JS
`Array.prototype.sort` with comparator `(b, a) => a.count - b.count`. -/
def insertByCountDesc (x : String × ℕ) : List (String × ℕ) → List (String × ℕ)
  | [] => [x]
  | y :: ys => if y.2 < x.2 then x :: y :: ys else y :: insertByCountDesc x ys

/-- Stable sort by descending count (result of the JS stable sort with
comparator `([, a], [, b]) => b - a`). -/
def sortByCountDesc (l : List (String × ℕ)) : List (String × ℕ) :=
  l.foldl (fun acc x => insertByCountDesc x acc) []

/-- One step of the sentiment-distribution reduce of
`getSessionStatistics` (`acc[msg.metadata.sentiment]++` under the
truthiness guard). -/
def bumpSentiment (acc : SentimentDistribution) (msg : Message) : SentimentDistribution :=
  match msg.metadata.bind (·.sentiment) with
  | some .positive => { acc with positive := acc.positive + 1 }
  | some .negative => { acc with negative := acc.negative + 1 }
  | some .neutral => { acc with neutral := acc.neutral + 1 }
  | none => acc

/-- The standalone pure recomputation `getSessionStatistics`. -/
def getSessionStatistics (session : ChatSession) : SessionStatistics :=
  { totalMessages := session.messages.length
    totalTokens := session.messages.foldl (fun sum msg => sum + msg.tokens.getD 0) 0
    totalCost := session.messages.foldl
      (fun sum msg => sum + ((msg.metadata.bind (·.cost)).getD 0)) 0
    averageResponseTime :=
      let responseTimes := (session.messages.filter
        (fun msg => jsTruthyNum msg.processingTime)).map (fun msg => msg.processingTime.getD 0)
      if responseTimes.length ≠ 0 then
        responseTimes.foldl (· + ·) 0 / (responseTimes.length : ℚ)
      else 0
    topTopics :=
      let topicCounts := session.messages.foldl
        (fun acc msg =>
          match msg.metadata.bind (·.topics) with
          | some ts => ts.foldl bumpTopic acc
          | none => acc) []
      ((sortByCountDesc topicCounts).take 5).map (·.1)
    sentimentDistribution := session.messages.foldl bumpSentiment ⟨0, 0, 0⟩ }

/-! ## Search (`src/hooks/useSearch.ts`) -/

/-- The per-session predicate of `filteredSessions`: every present
(JS-truthy) filter dimension must pass, mirroring the source's chain of
early `return false` checks. -/
def sessionMatches (filters : SearchFilters) (session : ChatSession) : Bool :=
  (if jsTruthyStr filters.query then
      let q := jsLower (filters.query.getD "")
      jsIncludes (jsLower session.title) q ||
        session.messages.any (fun msg => jsIncludes (jsLower msg.content) q)
    else true) &&
  (match filters.dateFrom with
    | some d => decide (d ≤ session.createdAt)
    | none => true) &&
  (match filters.dateTo with
    | some d => decide (session.createdAt ≤ d)
    | none => true) &&
  (match filters.tags with
    | some ts =>
      if 0 < ts.length then
        match session.tags with
        | some sessionTags => ts.any (fun tag => sessionTags.contains tag)
        | none => false
      else true
    | none => true) &&
  (if jsTruthyStr filters.category then
      decide (session.category = filters.category)
    else true) &&
  (match filters.messageType with
    | some r => session.messages.any (fun msg => msg.role = r)
    | none => true) &&
  (match filters.hasFiles with
    | some b =>
      decide ((session.messages.any
        (fun msg => match msg.files with
          | some fs => 0 < fs.length
          | none => false)) = b)
    | none => true) &&
  (match filters.sentiment with
    | some s => session.messages.any (fun msg => msg.metadata.bind (·.sentiment) = some s)
    | none => true)

def filteredSessions (sessions : List ChatSession) (filters : SearchFilters) :
    List ChatSession :=
  sessions.filter (sessionMatches filters)

/-! ## File validation (`src/lib/fileUtils.ts`) -/

structure JsFile where
  name : String
  type : String
  size : ℕ
deriving DecidableEq, Repr

structure ValidationResult where
  valid : Bool
  error : Option String := none
deriving DecidableEq, Repr

/-- Fuel-driven base-1024 integer logarithm (the value of
`Math.floor(Math.log(bytes) / Math.log(1024))`; exact except for
float-rounding noise immediately around exact powers, which no claim
touches). -/
def log1024Fuel : ℕ → ℕ → ℕ
  | 0, _ => 0
  | fuel + 1, n => if n < 1024 then 0 else log1024Fuel fuel (n / 1024) + 1

def log1024 (n : ℕ) : ℕ := log1024Fuel n n

/-- `parseFloat((bytes / p).toFixed(2))` in exact arithmetic: the value
in hundredths, `⌊bytes·100/p + 1/2⌋`, computed over ℕ as
`(200·bytes + p) / (2·p)` (round half up). -/
def toFixed2Cents (bytes p : ℕ) : ℕ :=
  (200 * bytes + p) / (2 * p)

/-- Decimal rendering of `cents / 100` as JS prints the parsed float
(no trailing zeros, no decimal point for integers). -/
def centsToChars (cents : ℕ) : List Char :=
  let whole := cents / 100
  let frac := cents % 100
  if frac = 0 then natToChars whole
  else if frac % 10 = 0 then natToChars whole ++ '.' :: natToChars (frac / 10)
  else if frac < 10 then natToChars whole ++ '.' :: '0' :: natToChars frac
  else natToChars whole ++ '.' :: natToChars frac

def fileSizeUnits : List String := ["Bytes", "KB", "MB", "GB", "TB"]

/-- `formatFileSize` of `fileUtils.ts`. -/
def formatFileSize (bytes : ℕ) : String :=
  if bytes = 0 then "0 Bytes"
  else
    let i := log1024 bytes
    String.mk (centsToChars (toFixed2Cents bytes (1024 ^ i)) ++
      ' ' :: (fileSizeUnits.getD i "undefined").data)

def textTypeMarkers : List String :=
  ["text/", "application/json", "application/javascript", "application/typescript",
   "application/xml", "application/csv", "application/yaml", "application/x-yaml"]

def textExtensions : List String :=
  ["txt", "md", "json", "js", "ts", "jsx", "tsx", "css", "html", "xml", "csv",
   "py", "java", "cpp", "c", "h", "php", "rb", "go", "rs", "swift", "kt",
   "scala", "sh", "yml", "yaml", "toml", "ini", "cfg", "conf", "log",
   "sql", "r", "matlab", "pl", "lua", "dart", "vue", "svelte"]

def isTextFile (file : JsFile) : Bool :=
  textTypeMarkers.any (fun t => t.data.isPrefixOf file.type.data) ||
    textExtensions.any (fun ext =>
      ('.' :: ext.data).isSuffixOf (file.name.data.map jsToLower))

def languageMap : List (String × String) :=
  [("js", "javascript"), ("ts", "typescript"), ("jsx", "javascript"),
   ("tsx", "typescript"), ("py", "python"), ("java", "java"), ("cpp", "cpp"),
   ("c", "c"), ("h", "c"), ("php", "php"), ("rb", "ruby"), ("go", "go"),
   ("rs", "rust"), ("swift", "swift"), ("kt", "kotlin"), ("scala", "scala"),
   ("sh", "bash"), ("sql", "sql"), ("html", "html"), ("css", "css"),
   ("xml", "xml"), ("json", "json"), ("yaml", "yaml"), ("yml", "yaml")]

/-- `detectFileLanguage`: last dot-separated fragment of the filename,
lowercased, looked up in the language table with fallback `"text"`. -/
def detectFileLanguage (filename : String) : String :=
  let extension := String.mk
    (((splitOnPred (fun c => c = '.') filename.data).getLastD []).map jsToLower)
  (languageMap.lookup extension).getD "text"

def allowedTypeMarkers : List String :=
  ["text/", "image/", "application/json", "application/javascript",
   "application/typescript", "application/xml", "application/csv",
   "application/pdf", "application/yaml", "application/x-yaml"]

def sizeErrorText (maxSize : ℕ) : String :=
  String.mk ("Файл слишком большой. Максимальный размер: ".data ++
    (formatFileSize maxSize).data)

def typeErrorText : String := "Неподдерживаемый тип файла"

/-- `validateFile`: size checked first, then MIME/extension support. -/
def validateFile (file : JsFile) (maxSize : ℕ := 50 * 1024 * 1024) : ValidationResult :=
  if maxSize < file.size then
    { valid := false, error := some (sizeErrorText maxSize) }
  else if !(allowedTypeMarkers.any (fun t => t.data.isPrefixOf file.type.data) ||
      isTextFile file) then
    { valid := false, error := some typeErrorText }
  else { valid := true }

/-! ## Spec-side definition for the title claim (C9)

`claimedTitleOfSpec` follows the specification's words, for comparison
with the source-derived `generateTitle`: the first six
whitespace-tokenized words joined by single spaces, with an ellipsis
marker appended exactly when the text contains more than six
whitespace-tokenized words. -/

def whitespaceTokens (s : String) : List (List Char) :=
  (splitOnPred Char.isWhitespace s.data).filter (fun w => w ≠ [])

def claimedTitleOfSpec (content : String) : String :=
  let ws := whitespaceTokens content
  String.mk (List.intercalate [' '] (ws.take 6) ++
    (if 6 < ws.length then "...".data else []))

/-! ## Concrete fixtures used by counterexamples and witnesses -/

def c1Msg : Message :=
  { id := "m1", role := .user, content := "A" }

def mkUserMsg (i : String) (text : String) : Message :=
  { id := i, role := .user, content := text }

def mkAssistantMsg (i : String) (text : String) (cost : ℚ) : Message :=
  { id := i, role := .assistant, content := text,
    metadata := some { cost := some cost } }

/-- Assistant message carrying a topics list, for the statistics claims. -/
def mkTopicMsg (i : String) (ts : List String) : Message :=
  { id := i, role := .assistant, content := "r",
    metadata := some { topics := some ts } }

def c4Messages : List Message :=
  [mkUserMsg "u1" "hi", mkTopicMsg "a1" ["alpha"], mkUserMsg "u2" "more"]

def c4Assistant : Message := mkTopicMsg "a2" ["beta"]

def c4Final : List Message := c4Messages ++ [c4Assistant]

def c4Session : ChatSession :=
  { id := "s1", title := "t", messages := c4Final }

def c7Session1 : ChatSession :=
  { id := "s1", title := "one",
    messages :=
      [mkUserMsg "u1" "q1", mkAssistantMsg "a1" "r1" (1/100),
       mkUserMsg "u2" "q2", mkAssistantMsg "a2" "r2" (1/100),
       mkUserMsg "u3" "q3", mkAssistantMsg "a3" "r3" (1/100)] }

def c7Session2 : ChatSession :=
  { id := "s2", title := "two",
    messages := [mkUserMsg "u4" "q4", mkAssistantMsg "a4" "r4" (2/100)] }

def plainSession1 : ChatSession :=
  { id := "p1", title := "hello", messages := [mkUserMsg "u1" "hi"] }

def plainSession2 : ChatSession :=
  { id := "p2", title := "world", messages := [] }

/-- Concrete stand-in for `JSON.parse` in the import witness. -/
def c8Parse : String → Option (List ChatSession) :=
  fun s => if s = "payload" then some [plainSession1] else none

def c9EmptySession : ChatSession :=
  { id := "s", title := "Новый чат", messages := [] }

def c9FilledSession : ChatSession :=
  { id := "s", title := "first title", messages := [mkUserMsg "u1" "hi"] }

/-! ## Observational equivalence and invariant for the stream loop -/

/-- Two loop states are observationally equal when they agree on the
callback-visible core; once the `[DONE]` early return has happened the
dead line buffer may differ. -/
def StreamEquiv (s t : StreamState) : Prop :=
  s.core = t.core ∧ (s.core.finished = false → s.buffer = t.buffer)

/-- Loop invariant: `onComplete` has fired exactly once when the
`[DONE]` early return has happened, and never before. -/
def StreamInv (core : StreamCore) : Prop :=
  countComplete core.events = (if core.finished then 1 else 0)

end AIChatbot

namespace AIChatbot

/-! # Theorems -/

/-! ## Stream-loop helper lemmas -/

theorem splitF_newline (rest : List Char) :
    splitF ('\n' :: rest) = ([] :: (splitF rest).1, (splitF rest).2) := by
  simp [splitF]

theorem splitF_cons_nil {c : Char} {rest r : List Char} (hc : c ≠ '\n')
    (hr : splitF rest = ([], r)) : splitF (c :: rest) = ([], c :: r) := by
  simp [splitF, hc, hr]

theorem splitF_cons_cons {c : Char} {rest r l1 : List Char} {lt : List (List Char)}
    (hc : c ≠ '\n') (hr : splitF rest = (l1 :: lt, r)) :
    splitF (c :: rest) = ((c :: l1) :: lt, r) := by
  simp [splitF, hc, hr]

theorem splitF_append (x y : List Char) :
    splitF (x ++ y) =
      ((splitF x).1 ++ (splitF ((splitF x).2 ++ y)).1, (splitF ((splitF x).2 ++ y)).2) := by
  induction x with
  | nil => simp [splitF]
  | cons c x ih =>
    by_cases hc : c = '\n'
    · subst hc
      rw [List.cons_append, splitF_newline, splitF_newline, ih]
      simp
    · rcases hx : splitF x with ⟨lx, rx⟩
      cases lx with
      | nil =>
        have hcx : splitF (c :: x) = ([], c :: rx) := splitF_cons_nil hc hx
        rcases hr : splitF (rx ++ y) with ⟨lr, rr⟩
        have hxy : splitF (x ++ y) = (lr, rr) := by rw [ih, hx, hr]; simp
        cases lr with
        | nil =>
          have hmain : splitF (c :: (x ++ y)) = ([], c :: rr) := splitF_cons_nil hc hxy
          have h2 : splitF ((c :: rx) ++ y) = ([], c :: rr) := by
            rw [List.cons_append]; exact splitF_cons_nil hc hr
          rw [List.cons_append, hmain, hcx, h2]
          simp
        | cons l1 lt =>
          have hmain : splitF (c :: (x ++ y)) = ((c :: l1) :: lt, rr) :=
            splitF_cons_cons hc hxy
          have h2 : splitF ((c :: rx) ++ y) = ((c :: l1) :: lt, rr) := by
            rw [List.cons_append]; exact splitF_cons_cons hc hr
          rw [List.cons_append, hmain, hcx, h2]
          simp
      | cons l1 lt =>
        have hcx : splitF (c :: x) = ((c :: l1) :: lt, rx) := splitF_cons_cons hc hx
        rcases hr : splitF (rx ++ y) with ⟨lr, rr⟩
        have hxy : splitF (x ++ y) = (l1 :: (lt ++ lr), rr) := by
          rw [ih, hx, hr]; simp
        have hmain : splitF (c :: (x ++ y)) = ((c :: l1) :: (lt ++ lr), rr) :=
          splitF_cons_cons hc hxy
        rw [List.cons_append, hmain, hcx, hr]
        simp

theorem stepLine_finished (parse : List Char → Option (Option (List Char)))
    (cfg : StreamCfg) (core : StreamCore) (line : List Char)
    (h : core.finished = true) : stepLine parse cfg core line = core := by
  simp [stepLine, h]

theorem foldl_stepLine_finished (parse : List Char → Option (Option (List Char)))
    (cfg : StreamCfg) (ls : List (List Char)) (core : StreamCore)
    (h : core.finished = true) : ls.foldl (stepLine parse cfg) core = core := by
  induction ls with
  | nil => rfl
  | cons l ls ih => simp [List.foldl, stepLine_finished _ _ _ _ h, ih]

theorem streamEquiv_refl (s : StreamState) : StreamEquiv s s := ⟨rfl, fun _ => rfl⟩

theorem streamEquiv_symm {s t : StreamState} (h : StreamEquiv s t) : StreamEquiv t s := by
  refine ⟨h.1.symm, fun hf => ?_⟩
  exact (h.2 (by rw [h.1]; exact hf)).symm

theorem streamEquiv_trans {s t u : StreamState} (h1 : StreamEquiv s t)
    (h2 : StreamEquiv t u) : StreamEquiv s u := by
  refine ⟨h1.1.trans h2.1, fun hf => ?_⟩
  exact (h1.2 hf).trans (h2.2 (by rw [← h1.1]; exact hf))

theorem processChunk_append (parse : List Char → Option (Option (List Char)))
    (cfg : StreamCfg) (st : StreamState) (a b : List Char) :
    StreamEquiv (processChunk parse cfg st (a ++ b))
      (processChunk parse cfg (processChunk parse cfg st a) b) := by
  by_cases hf : st.core.finished = true
  · simp [processChunk, hf, streamEquiv_refl]
  · have hf' : st.core.finished = false := by
      cases h : st.core.finished
      · rfl
      · exact absurd h hf
    simp only [processChunk, hf', Bool.false_eq_true, if_false]
    have hassoc : st.buffer ++ (a ++ b) = (st.buffer ++ a) ++ b :=
      (List.append_assoc _ _ _).symm
    rw [hassoc, splitF_append (st.buffer ++ a) b]
    set la := (splitF (st.buffer ++ a)).1 with hla
    set ra := (splitF (st.buffer ++ a)).2 with hra
    set core1 := la.foldl (stepLine parse cfg) st.core with hcore1
    by_cases h1 : core1.finished = true
    · simp only [h1, if_true]
      refine ⟨?_, fun hff => ?_⟩
      · simp only [List.foldl_append, ← hcore1]
        exact foldl_stepLine_finished _ _ _ _ h1
      · exfalso
        simp only [List.foldl_append, ← hcore1,
          foldl_stepLine_finished _ _ _ _ h1] at hff
        rw [hff] at h1
        exact Bool.false_ne_true h1
    · have h1' : core1.finished = false := by
        cases h : core1.finished
        · rfl
        · exact absurd h h1
      simp only [h1', Bool.false_eq_true, if_false]
      refine ⟨?_, fun _ => rfl⟩
      simp [List.foldl_append, ← hcore1]

theorem foldl_processChunk_equiv (parse : List Char → Option (Option (List Char)))
    (cfg : StreamCfg) :
    ∀ (cs : List (List Char)) (c : List Char) (st : StreamState),
      StreamEquiv ((c :: cs).foldl (processChunk parse cfg) st)
        (processChunk parse cfg st (c ++ cs.flatten)) := by
  intro cs
  induction cs with
  | nil =>
    intro c st
    simp only [List.foldl, List.flatten_nil, List.append_nil]
    exact streamEquiv_refl _
  | cons c' cs' ih =>
    intro c st
    have step1 : (c :: c' :: cs').foldl (processChunk parse cfg) st =
        (c' :: cs').foldl (processChunk parse cfg) (processChunk parse cfg st c) := rfl
    rw [step1]
    refine streamEquiv_trans (ih c' (processChunk parse cfg st c)) ?_
    refine streamEquiv_trans (streamEquiv_symm (processChunk_append parse cfg st c (c' ++ cs'.flatten))) ?_
    have : c ++ (c' ++ cs'.flatten) = c ++ (c' :: cs').flatten := by simp [List.flatten]
    rw [this]
    exact streamEquiv_refl _

theorem runStream_eq_single (parse : List Char → Option (Option (List Char)))
    (cfg : StreamCfg) (chunks : List (List Char)) (h : chunks ≠ []) :
    runStream parse cfg chunks =
      (processChunk parse cfg initStreamState chunks.flatten).core := by
  obtain ⟨c, cs, rfl⟩ := List.exists_cons_of_ne_nil h
  have he := foldl_processChunk_equiv parse cfg cs c initStreamState
  have : (c :: cs).flatten = c ++ cs.flatten := by simp [List.flatten]
  rw [runStream, he.1, this]

theorem stepLine_inv (parse : List Char → Option (Option (List Char)))
    (cfg : StreamCfg) (core : StreamCore) (line : List Char)
    (h : StreamInv core) : StreamInv (stepLine parse cfg core line) := by
  unfold StreamInv at h ⊢
  by_cases hfin : core.finished = true
  · rw [stepLine_finished parse cfg core line hfin]
    exact h
  · have hfin' : core.finished = false := by
      revert hfin; cases core.finished <;> simp
    simp only [hfin', Bool.false_eq_true, if_false] at h
    by_cases hpre : dataMarker.isPrefixOf line = true
    · by_cases hdone : line.drop 6 = doneMarker
      · simp [stepLine, hfin', hpre, hdone, countComplete, List.countP_append,
          countComplete] at h ⊢
        simpa [countComplete] using h
      · cases hp : parse (line.drop 6) with
        | none => simp [stepLine, hfin', hpre, hdone, hp, h]
        | some contentOpt =>
          cases contentOpt with
          | none => simp [stepLine, hfin', hpre, hdone, hp, h]
          | some content =>
            by_cases hc : content = []
            · simp [stepLine, hfin', hpre, hdone, hp, hc, h]
            · simp [stepLine, hfin', hpre, hdone, hp, hc, countComplete,
                List.countP_append] at h ⊢
              simpa [countComplete] using h
    · simp [stepLine, hfin', hpre, h]

theorem foldl_stepLine_inv (parse : List Char → Option (Option (List Char)))
    (cfg : StreamCfg) (ls : List (List Char)) (core : StreamCore)
    (h : StreamInv core) : StreamInv (ls.foldl (stepLine parse cfg) core) := by
  induction ls generalizing core with
  | nil => exact h
  | cons l ls ih => exact ih _ (stepLine_inv parse cfg core l h)

theorem processChunk_inv (parse : List Char → Option (Option (List Char)))
    (cfg : StreamCfg) (st : StreamState) (chunk : List Char)
    (h : StreamInv st.core) : StreamInv (processChunk parse cfg st chunk).core := by
  unfold processChunk
  split
  · exact h
  · exact foldl_stepLine_inv parse cfg _ _ h

theorem runStream_inv (parse : List Char → Option (Option (List Char)))
    (cfg : StreamCfg) (chunks : List (List Char)) :
    StreamInv (runStream parse cfg chunks) := by
  unfold runStream
  have main : ∀ (cs : List (List Char)) (st : StreamState), StreamInv st.core →
      StreamInv ((cs.foldl (processChunk parse cfg) st).core) := by
    intro cs
    induction cs with
    | nil => intro st h; exact h
    | cons c cs ih =>
      intro st h
      exact ih _ (processChunk_inv parse cfg st c h)
  exact main chunks initStreamState (by simp [initStreamState, StreamInv, countComplete])

/-- Any line that takes the `[DONE]` branch is literally the sentinel line. -/
theorem stepLine_not_sentinel (parse : List Char → Option (Option (List Char)))
    (cfg : StreamCfg) (core : StreamCore) (line : List Char)
    (hfin : core.finished = false) (hline : line ≠ sentinelLine) :
    (stepLine parse cfg core line).finished = false := by
  by_cases hpre : dataMarker.isPrefixOf line = true
  · by_cases hdone : line.drop 6 = doneMarker
    · exfalso
      apply hline
      obtain ⟨t, ht⟩ := List.isPrefixOf_iff_prefix.mp hpre
      subst ht
      have hd : (dataMarker ++ t).drop 6 = t := by
        have h6 : dataMarker.length = 6 := rfl
        rw [← h6, List.drop_left]
      rw [hd] at hdone
      rw [hdone]
      rfl
    · cases hp : parse (line.drop 6) with
      | none => simp [stepLine, hfin, hpre, hdone, hp]
      | some contentOpt =>
        cases contentOpt with
        | none => simp [stepLine, hfin, hpre, hdone, hp]
        | some content =>
          by_cases hc : content = []
          · simp [stepLine, hfin, hpre, hdone, hp, hc]
          · simp [stepLine, hfin, hpre, hdone, hp, hc]
  · simp [stepLine, hfin, hpre]

theorem foldl_stepLine_no_sentinel (parse : List Char → Option (Option (List Char)))
    (cfg : StreamCfg) (ls : List (List Char)) (core : StreamCore)
    (hfin : core.finished = false) (h : ∀ l ∈ ls, l ≠ sentinelLine) :
    (ls.foldl (stepLine parse cfg) core).finished = false := by
  induction ls generalizing core with
  | nil => exact hfin
  | cons l ls ih =>
    exact ih _ (stepLine_not_sentinel parse cfg core l hfin (h l (List.mem_cons_self l ls)))
      (fun l' hl' => h l' (List.mem_cons_of_mem l hl'))

/-- Splitting off one complete newline-terminated line. -/
theorem splitF_line (rest : List Char) :
    ∀ l : List Char, '\n' ∉ l →
      splitF (l ++ '\n' :: rest) = (l :: (splitF rest).1, (splitF rest).2) := by
  intro l
  induction l with
  | nil =>
    intro _
    simp [splitF_newline]
  | cons c t ih =>
    intro hl
    have hc : c ≠ '\n' := by
      intro h
      exact hl (h ▸ List.mem_cons_self c t)
    have ht : '\n' ∉ t := fun h => hl (List.mem_cons_of_mem c h)
    rw [List.cons_append]
    exact splitF_cons_cons hc (ih ht)

/-- Skipping a malformed `data:` frame: when the payload fails to parse
the loop state is untouched. -/
theorem stepLine_skip (parse : List Char → Option (Option (List Char)))
    (cfg : StreamCfg) (core : StreamCore) (p : List Char)
    (hfin : core.finished = false) (hnd : p ≠ doneMarker) (hp : parse p = none) :
    stepLine parse cfg core (dataMarker ++ p) = core := by
  unfold stepLine
  rw [hfin]
  have hpre : dataMarker.isPrefixOf (dataMarker ++ p) = true :=
    List.isPrefixOf_iff_prefix.mpr (List.prefix_append _ _)
  have hd : (dataMarker ++ p).drop 6 = p := by
    have : dataMarker.length = 6 := rfl
    rw [← this, List.drop_left]
  simp only [Bool.false_eq_true, if_false, hpre, if_true, hd, hnd, hp]

/-! ## Claim C2: streaming happy-path scenario -/

/-- Claim C2.  On the exact wire input `data: ...Hel... / data: ...lo... /
data: [DONE]` — however the lines are split across network reads — the
chunk callback fires exactly with `"Hel"` then `"lo"` in that order and
the completion callback fires exactly once, after the last chunk, with
the metadata computed over the accumulated content `"Hello"`; moreover
for every stream whatsoever the completion callback fires at most once,
and on a `[DONE]` sentinel with zero content deltas it still fires
(with metadata over the empty accumulated content). -/
theorem c2_streaming_hello_scenario :
    (∀ (cfg : StreamCfg) (chunks : List (List Char)), chunks.flatten = helloInput →
      (runStream simpleDeltaParse cfg chunks).events =
        [.chunk "Hel".toList, .chunk "lo".toList,
         .complete (streamMetadata cfg 2 "Hello")]) ∧
    (∀ (parse : List Char → Option (Option (List Char))) (cfg : StreamCfg)
        (chunks : List (List Char)),
      countComplete (runStream parse cfg chunks).events ≤ 1) ∧
    (∀ (cfg : StreamCfg) (chunks : List (List Char)), chunks.flatten = doneOnlyInput →
      (runStream simpleDeltaParse cfg chunks).events =
        [.complete (streamMetadata cfg 0 "")]) := by
  refine ⟨?_, ?_, ?_⟩
  · intro cfg chunks hj
    have hne : chunks ≠ [] := by
      intro h
      rw [h, List.flatten_nil] at hj
      exact (by decide : helloInput ≠ []) hj.symm
    rw [runStream_eq_single simpleDeltaParse cfg chunks hne, hj]
    rfl
  · intro parse cfg chunks
    have h := runStream_inv parse cfg chunks
    unfold StreamInv at h
    rw [h]
    split <;> simp
  · intro cfg chunks hj
    have hne : chunks ≠ [] := by
      intro h
      rw [h, List.flatten_nil] at hj
      exact (by decide : doneOnlyInput ≠ []) hj.symm
    rw [runStream_eq_single simpleDeltaParse cfg chunks hne, hj]
    rfl

/-- Witness for C2 at a concrete mid-frame split of the wire input. -/
theorem c2_streaming_hello_scenario_witness :
    ((runStream simpleDeltaParse defaultStreamCfg
        [helloInput.take 10, helloInput.drop 10]).events =
      [.chunk "Hel".toList, .chunk "lo".toList,
       .complete (streamMetadata defaultStreamCfg 2 "Hello")]) ∧
    countComplete (runStream simpleDeltaParse defaultStreamCfg [helloInput]).events ≤ 1 ∧
    (runStream simpleDeltaParse defaultStreamCfg [doneOnlyInput]).events =
      [.complete (streamMetadata defaultStreamCfg 0 "")] :=
  ⟨c2_streaming_hello_scenario.1 defaultStreamCfg _
      (by simp [List.take_append_drop]),
   c2_streaming_hello_scenario.2.1 simpleDeltaParse defaultStreamCfg [helloInput],
   c2_streaming_hello_scenario.2.2 defaultStreamCfg [doneOnlyInput] (by simp)⟩

/-! ## Claim C3: malformed frame is skipped -/

/-- Claim C3.  A `data: <payload>` line whose payload fails to parse as JSON,
interleaved between the two valid delta frames, is silently discarded:
both valid chunks are still delivered and the completion callback still
fires on the `[DONE]` sentinel — for every split of the stream across
network reads. -/
theorem c3_malformed_frame_skipped (cfg : StreamCfg) (badPayload : List Char)
    (chunks : List (List Char))
    (hparse : simpleDeltaParse badPayload = none)
    (hnl : '\n' ∉ badPayload)
    (hnd : badPayload ≠ doneMarker)
    (hj : chunks.flatten = malformedInput badPayload) :
    (runStream simpleDeltaParse cfg chunks).events =
      [.chunk "Hel".toList, .chunk "lo".toList,
       .complete (streamMetadata cfg 2 "Hello")] := by
  have hne : chunks ≠ [] := by
    intro h
    rw [h, List.flatten_nil] at hj
    have : malformedInput badPayload = [] := hj.symm
    unfold malformedInput at this
    rcases List.append_eq_nil.mp this with ⟨h1, _⟩
    exact (by decide : helloFrame1 ≠ []) h1
  rw [runStream_eq_single simpleDeltaParse cfg chunks hne, hj]
  have hpc : processChunk simpleDeltaParse cfg initStreamState (malformedInput badPayload) =
      ⟨(splitF (malformedInput badPayload)).2,
       (splitF (malformedInput badPayload)).1.foldl
         (stepLine simpleDeltaParse cfg) initStreamState.core⟩ := by
    simp [processChunk, initStreamState]
  rw [hpc]
  have hnlB : '\n' ∉ dataMarker ++ badPayload := by
    intro hmem
    rcases List.mem_append.mp hmem with h | h
    · exact (by decide : '\n' ∉ dataMarker) h
    · exact hnl h
  have hsplit : splitF (malformedInput badPayload) =
      ([helloFrame1, dataMarker ++ badPayload, helloFrame2, sentinelLine], []) := by
    unfold malformedInput
    rw [splitF_line _ _ (by decide : '\n' ∉ helloFrame1)]
    rw [splitF_line _ _ hnlB]
    rw [splitF_line _ _ (by decide : '\n' ∉ helloFrame2)]
    have hcons : (['\n'] : List Char) = '\n' :: [] := rfl
    rw [hcons, splitF_line _ _ (by decide : '\n' ∉ sentinelLine)]
    rfl
  rw [hsplit]
  simp only [List.foldl]
  have e1 : stepLine simpleDeltaParse cfg initStreamState.core helloFrame1 =
      ⟨"Hel".toList, 1, [.chunk "Hel".toList], false⟩ := rfl
  rw [e1]
  rw [stepLine_skip simpleDeltaParse cfg _ badPayload rfl hnd hparse]
  rfl

/-- Witness for C3 at the spec's malformed payload, as a single read. -/
theorem c3_malformed_frame_skipped_witness :
    (runStream simpleDeltaParse defaultStreamCfg
        [malformedInput ("\x7bnot json".toList)]).events =
      [.chunk "Hel".toList, .chunk "lo".toList,
       .complete (streamMetadata defaultStreamCfg 2 "Hello")] :=
  c3_malformed_frame_skipped defaultStreamCfg ("\x7bnot json".toList)
    [malformedInput ("\x7bnot json".toList)]
    (by decide) (by decide) (by decide) (by simp)

/-! ## Claim C10: no completion callback without the sentinel -/

/-- Claim C10.  The completion callback fires only when a complete
`data: [DONE]` sentinel line was received: if the newline-terminated
lines of the whole delivered byte stream never include the sentinel —
in particular when the reader reports end-of-stream first — the
function returns without invoking the completion callback, discarding
the partially accumulated content. -/
theorem c10_completion_requires_sentinel
    (parse : List Char → Option (Option (List Char))) (cfg : StreamCfg)
    (chunks : List (List Char))
    (h : sentinelLine ∉ (splitF chunks.flatten).1) :
    countComplete (runStream parse cfg chunks).events = 0 := by
  cases chunks with
  | nil => rfl
  | cons c cs =>
    rw [runStream_eq_single parse cfg _ (List.cons_ne_nil c cs)]
    have hpc : processChunk parse cfg initStreamState ((c :: cs).flatten) =
        ⟨(splitF ((c :: cs).flatten)).2,
         (splitF ((c :: cs).flatten)).1.foldl (stepLine parse cfg) initStreamState.core⟩ := by
      simp [processChunk, initStreamState]
    rw [hpc]
    have hfin : ((splitF ((c :: cs).flatten)).1.foldl
        (stepLine parse cfg) initStreamState.core).finished = false :=
      foldl_stepLine_no_sentinel parse cfg _ _ rfl
        (fun l hl heq => h (heq ▸ hl))
    have hinv := foldl_stepLine_inv parse cfg (splitF ((c :: cs).flatten)).1
      initStreamState.core (by simp [StreamInv, countComplete, initStreamState])
    unfold StreamInv at hinv
    rw [hinv, hfin]
    simp

/-- Witness for C10: a stream truncated by end-of-stream before the
sentinel line is complete fires chunk callbacks but never the
completion callback. -/
theorem c10_completion_requires_sentinel_witness :
    countComplete (runStream simpleDeltaParse defaultStreamCfg
      [(helloFrame1 ++ '\n' :: sentinelLine)]).events = 0 :=
  c10_completion_requires_sentinel simpleDeltaParse defaultStreamCfg
    [(helloFrame1 ++ '\n' :: sentinelLine)] (by decide)

/-! ## Claim C1: `originalContent` across two successive edits -/

/-- Claim C1, counterexample.  A message with content `"A"` edited to `"B"` and
then to `"C"` ends with `originalContent = some "B"` — the intermediate
content installed by the first edit — not `some "A"`, the content before
the first edit, refuting the claimed set-once invariant. -/
theorem c1_counterexample :
    (handleMessageEdit (handleMessageEdit [c1Msg] "m1" "B") "m1" "C").map
        Message.originalContent = [some "B"] ∧
    (handleMessageEdit (handleMessageEdit [c1Msg] "m1" "B") "m1" "C").map
        Message.originalContent ≠ [some "A"] ∧
    c1Msg.content = "A" ∧ ("B" : String) ≠ "A" ∧ ("C" : String) ≠ "B" := by
  decide

/-- Claim C1, amended.  Every edit overwrites `originalContent` with the
immediately preceding content: after two successive edits of the same
message with different texts, the edited message carries the second text
as content and the *first edit's* text — not the pre-first-edit text —
as `originalContent`. -/
theorem c1_edit_overwrites_original (msgs : List Message) (mId t1 t2 : String)
    (_hdiff : t1 ≠ t2) :
    handleMessageEdit (handleMessageEdit msgs mId t1) mId t2 =
      msgs.map (fun m =>
        if m.id = mId then
          { m with content := t2, isEdited := some true, originalContent := some t1 }
        else m) := by
  unfold handleMessageEdit
  rw [List.map_map]
  apply List.map_congr_left
  intro m _
  by_cases h : m.id = mId
  · simp [Function.comp, h]
  · simp [Function.comp, h]

/-- Witness for the amended C1 at a concrete message. -/
theorem c1_edit_overwrites_original_witness :
    handleMessageEdit (handleMessageEdit [c1Msg] "m1" "B") "m1" "C" =
      [c1Msg].map (fun m =>
        if m.id = "m1" then
          { m with content := "C", isEdited := some true, originalContent := some "B" }
        else m) :=
  c1_edit_overwrites_original [c1Msg] "m1" "B" "C" (by decide)

/-! ## Claim C4: stored statistics versus wholesale recomputation -/

theorem foldl_add_shift (l : List ℚ) (x : ℚ) :
    l.foldl (· + ·) x = x + l.foldl (· + ·) 0 := by
  induction l generalizing x with
  | nil => simp
  | cons a t ih =>
    simp only [List.foldl_cons]
    rw [ih (x + a), ih (0 + a)]
    ring

theorem foldl_div_shift (l : List ℚ) (n x : ℚ) :
    l.foldl (fun s t => s + t / n) x = x + l.foldl (· + ·) 0 / n := by
  induction l generalizing x with
  | nil => simp
  | cons a t ih =>
    simp only [List.foldl_cons]
    rw [ih (x + a / n), foldl_add_shift t (0 + a), zero_add, ← div_add_div_same,
      ← add_assoc]

theorem foldl_bumpSentiment (msgs : List Message) (acc : SentimentDistribution) :
    msgs.foldl bumpSentiment acc =
      ⟨acc.positive +
        (msgs.filter (fun m => m.metadata.bind (·.sentiment) = some .positive)).length,
       acc.negative +
        (msgs.filter (fun m => m.metadata.bind (·.sentiment) = some .negative)).length,
       acc.neutral +
        (msgs.filter (fun m => m.metadata.bind (·.sentiment) = some .neutral)).length⟩ := by
  induction msgs generalizing acc with
  | nil => simp
  | cons m t ih =>
    rw [List.foldl_cons, ih]
    rcases h : m.metadata.bind (·.sentiment) with _ | s
    · simp [bumpSentiment, h, List.filter_cons]
    · cases s <;> simp [bumpSentiment, h, List.filter_cons] <;> omega

/-- Claim C4, counterexample.  With an earlier assistant message tagged
`["alpha"]` and a final assistant message tagged `["beta"]`, the stored
statistics keep `topTopics = ["beta"]` (the last message's raw topic
list) while the wholesale recomputation ranks all topics and returns
`["alpha", "beta"]`, so the two disagree. -/
theorem c4_counterexample :
    (sendMessageNewStats c4Final c4Assistant).topTopics = ["beta"] ∧
    (getSessionStatistics c4Session).topTopics = ["alpha", "beta"] ∧
    sendMessageNewStats c4Final c4Assistant ≠ getSessionStatistics c4Session := by
  refine ⟨by decide, by decide, fun h => ?_⟩
  have h2 := congrArg SessionStatistics.topTopics h
  revert h2
  decide

/-- Claim C4, amended.  The statistics stored by the assistant-append path
agree with the standalone recomputation `getSessionStatistics` on
`totalMessages`, `totalTokens`, `totalCost`, `averageResponseTime` and
`sentimentDistribution`; `topTopics`, however, is the final assistant
message's own topic list (empty when absent) rather than the
frequency-ranked top five of the whole session. -/
theorem c4_stats_refinement_amended (msgs : List Message) (am : Message)
    (sess : ChatSession) (hm : sess.messages = msgs ++ [am]) :
    sendMessageNewStats (msgs ++ [am]) am =
      { getSessionStatistics sess with
          topTopics := (am.metadata.bind (·.topics)).getD [] } := by
  unfold sendMessageNewStats getSessionStatistics
  rw [hm]
  simp only [SessionStatistics.mk.injEq]
  refine ⟨trivial, trivial, trivial, ?_, trivial, ?_⟩
  · set arr := (msgs ++ [am]).filter (fun m => jsTruthyNum m.processingTime) with harr
    have hfm :
        arr.foldl (fun s m => s + m.processingTime.getD 0 / (arr.length : ℚ)) 0 =
          (arr.map (fun m => m.processingTime.getD 0)).foldl
            (fun s t => s + t / (arr.length : ℚ)) 0 :=
      (List.foldl_map (fun m : Message => m.processingTime.getD 0)
        (fun s t => s + t / (arr.length : ℚ)) arr 0).symm
    rw [hfm, foldl_div_shift, zero_add]
    by_cases hn : arr.length = 0
    · have he : arr = [] := List.length_eq_zero.mp hn
      rw [he]
      simp
    · rw [if_pos]
      · rw [List.length_map]
      · rw [List.length_map]
        exact hn
  · rw [foldl_bumpSentiment]
    simp

/-- Witness for the amended C4 at the concrete fixture session. -/
theorem c4_stats_refinement_amended_witness :
    sendMessageNewStats (c4Messages ++ [c4Assistant]) c4Assistant =
      { getSessionStatistics c4Session with
          topTopics := (c4Assistant.metadata.bind (·.topics)).getD [] } :=
  c4_stats_refinement_amended c4Messages c4Assistant c4Session rfl

/-! ## Claim C5: the empty filter is the identity -/

/-- Claim C5.  When no filter dimension is set, `filteredSessions` returns the
input session list unchanged, every element present and in order. -/
theorem c5_empty_filter_identity (sessions : List ChatSession)
    (filters : SearchFilters)
    (hq : filters.query = none) (hdf : filters.dateFrom = none)
    (hdt : filters.dateTo = none) (htg : filters.tags = none)
    (hc : filters.category = none) (hmt : filters.messageType = none)
    (hhf : filters.hasFiles = none) (hs : filters.sentiment = none) :
    filteredSessions sessions filters = sessions := by
  unfold filteredSessions
  rw [List.filter_eq_self]
  intro s _
  simp [sessionMatches, hq, hdf, hdt, htg, hc, hmt, hhf, hs, jsTruthyStr]

/-- Witness for C5 on a concrete two-session collection. -/
theorem c5_empty_filter_identity_witness :
    filteredSessions [plainSession1, plainSession2] {} =
      [plainSession1, plainSession2] :=
  c5_empty_filter_identity [plainSession1, plainSession2] {}
    rfl rfl rfl rfl rfl rfl rfl rfl

/-! ## Claim C6: file validation order and scenarios -/

/-- Claim C6.  Validation checks size first (any oversized file is rejected
with the size reason carrying the formatted limit, regardless of type),
then type: a 60MB file against a 50MB limit gets the size-exceeded
reason including the formatted limit `50 MB`; a 1KB unrecognized binary
gets the unsupported-type reason; a 1KB `.py` file is accepted and its
detected source language is `python`. -/
theorem c6_file_validation_rules :
    (∀ (f : JsFile) (maxSize : ℕ), maxSize < f.size →
      validateFile f maxSize = ⟨false, some (sizeErrorText maxSize)⟩) ∧
    validateFile ⟨"big.bin", "application/octet-stream", 60 * 1024 * 1024⟩
        (50 * 1024 * 1024) =
      ⟨false, some "Файл слишком большой. Максимальный размер: 50 MB"⟩ ∧
    validateFile ⟨"data.bin", "application/octet-stream", 1024⟩ (50 * 1024 * 1024) =
      ⟨false, some "Неподдерживаемый тип файла"⟩ ∧
    validateFile ⟨"script.py", "", 1024⟩ (50 * 1024 * 1024) = ⟨true, none⟩ ∧
    detectFileLanguage "script.py" = "python" := by
  refine ⟨?_, by decide, by decide, by decide, by decide⟩
  intro f maxSize h
  simp [validateFile, h]

/-- Witness for C6's universally quantified size-first conjunct. -/
theorem c6_file_validation_rules_witness :
    validateFile ⟨"huge.xyz", "application/octet-stream", 51 * 1024 * 1024⟩
        (50 * 1024 * 1024) =
      ⟨false, some (sizeErrorText (50 * 1024 * 1024))⟩ :=
  c6_file_validation_rules.1
    ⟨"huge.xyz", "application/octet-stream", 51 * 1024 * 1024⟩
    (50 * 1024 * 1024) (by decide)

/-! ## Claim C7: analytics totals scenario -/

/-- Claim C7.  Two sessions — one with three user+assistant pairs whose
assistant messages cost `0.01` each, one with a single pair costing
`0.02` — aggregate to `totalCost = 0.05` and `totalMessages = 8`. -/
theorem c7_analytics_totals :
    (useAnalyticsTotals [c7Session1, c7Session2]).totalCost = 5/100 ∧
    (useAnalyticsTotals [c7Session1, c7Session2]).totalMessages = 8 := by
  constructor
  · norm_num [useAnalyticsTotals, c7Session1, c7Session2, mkUserMsg, mkAssistantMsg]
  · decide

/-! ## Claim C8: import prepends on success, no-op on failure -/

/-- Claim C8.  When the payload parses, the imported sessions are prepended
and the prior collection is retained, in order, after them; when
parsing fails an import error is signalled and the collection is
returned exactly unchanged. -/
theorem c8_import_behavior (parse : String → Option (List ChatSession))
    (payload : String) (prev : List ChatSession) :
    (∀ imported, parse payload = some imported →
      importSessions parse payload prev = (imported ++ prev, false) ∧
      (importSessions parse payload prev).1.drop imported.length = prev) ∧
    (parse payload = none → importSessions parse payload prev = (prev, true)) := by
  constructor
  · intro imported h
    constructor
    · simp [importSessions, h]
    · simp [importSessions, h, List.drop_left]
  · intro h
    simp [importSessions, h]

/-- Witness for C8 on a concrete parser, payload, and collection. -/
theorem c8_import_behavior_witness :
    importSessions c8Parse "payload" [plainSession2] =
      ([plainSession1] ++ [plainSession2], false) ∧
    importSessions c8Parse "nonsense" [plainSession2] = ([plainSession2], true) :=
  ⟨((c8_import_behavior c8Parse "payload" [plainSession2]).1 [plainSession1]
      (by decide)).1,
   (c8_import_behavior c8Parse "nonsense" [plainSession2]).2 (by decide)⟩

/-! ## Claim C9: first-message title derivation -/

/-- Claim C9, counterexample.  For the first message `" a b c d e f"` (six
words, one leading space) the code appends the ellipsis marker — the
untrimmed text split on the space character has seven fragments — while
the claimed whitespace-tokenized rule (six tokens) forbids it, so the
derived title differs from the claimed one. -/
theorem c9_title_counterexample :
    sendMessageTitle c9EmptySession " a b c d e f" = "a b c d e f..." ∧
    claimedTitleOfSpec " a b c d e f" = "a b c d e f" ∧
    sendMessageTitle c9EmptySession " a b c d e f" ≠
      claimedTitleOfSpec " a b c d e f" := by
  decide

/-- Claim C9, amended.  On a session's first message the placeholder title
is overwritten by the first six fragments of the *trimmed* text split
on the space character, joined by single spaces, with the ellipsis
marker appended exactly when the *untrimmed* text split on the space
character has more than six fragments (empty fragments from repeated or
leading spaces count); on any later message the title is unchanged. -/
theorem c9_title_amended (sess : ChatSession) (content : String) :
    (sess.messages = [] →
      sendMessageTitle sess content =
        String.mk (List.intercalate [' ']
            ((splitOnPred (fun c => c = ' ') (trimChars content.data)).take 6) ++
          (if 6 < (splitOnPred (fun c => c = ' ') content.data).length then
            "...".data else []))) ∧
    (sess.messages ≠ [] → sendMessageTitle sess content = sess.title) := by
  constructor
  · intro h
    simp [sendMessageTitle, h, generateTitle]
  · intro h
    simp [sendMessageTitle, h]

/-- Witness for the amended C9: first message of an empty session
derives the title (with the spurious ellipsis), a later message leaves
the existing title alone. -/
theorem c9_title_amended_witness :
    sendMessageTitle c9EmptySession " a b c d e f" = "a b c d e f..." ∧
    sendMessageTitle c9FilledSession "next message text" = "first title" :=
  ⟨((c9_title_amended c9EmptySession " a b c d e f").1 rfl).trans (by decide),
   ((c9_title_amended c9FilledSession "next message text").2 (by decide)).trans rfl⟩

end AIChatbot
